import Mathlib

set_option maxHeartbeats 1000000

/-!
Shallow embedding of the console-session core of the repository
(`src/serial_interface.py` and `src/telnet_interface.py`).

Python strings are embedded as explicit character lists (`Str`).  Wall-clock
time is abstracted away: a timeout window of the serial poll loop is the list
of data chunks drained from the port, one entry per poll that saw data, and a
Telnet `expect` attempt is one entry of a per-attempt data list.  Log output
(`logger.*`) and fixed sleeps (`time.sleep`) have no observable effect on the
values computed and are not modelled.  Exceptions are modelled with `Except`
or `Option`, with the raising environment (transport faults) given as
explicit parameters.
-/

/-- Characters of a Python string; the embedding works on explicit character lists. -/
abbrev Str : Type := List Char

/-- Character list of a Lean string literal. -/
def lit (s : String) : Str := s.toList

/-- ASCII characters Python `str.strip` treats as whitespace. -/
def pyIsSpace (c : Char) : Bool :=
  c = ' ' || c = '\t' || c = '\n' || c = '\r' || c = '\x0b' || c = '\x0c'

/-- Python `s.strip()`: drop whitespace from both ends. -/
def pyStrip (s : Str) : Str :=
  ((s.dropWhile pyIsSpace).reverse.dropWhile pyIsSpace).reverse

/-- Python `s.rstrip()`: drop trailing whitespace only. -/
def pyRStrip (s : Str) : Str :=
  (s.reverse.dropWhile pyIsSpace).reverse

/-- Python substring containment (`pat in s`). -/
def containsSub (pat : Str) : Str → Bool
  | [] => List.isPrefixOf pat []
  | c :: rest => List.isPrefixOf pat (c :: rest) || containsSub pat rest

/-- Worker for Python `str.replace(pat, rep)`: replaces every non-overlapping
occurrence of `pat`, scanning left to right.  `skip` counts characters of a
just-matched occurrence that still have to be consumed without being copied. -/
def replaceAllGo (pat rep : Str) : Nat → Str → Str
  | Nat.succ k, _ :: rest => replaceAllGo pat rep k rest
  | Nat.succ _, [] => []
  | 0, [] => []
  | 0, c :: rest =>
    if pat ≠ [] ∧ List.isPrefixOf pat (c :: rest) then
      rep ++ replaceAllGo pat rep (pat.length - 1) rest
    else
      c :: replaceAllGo pat rep 0 rest

/-- Python `s.replace(pat, rep)` for the nonempty patterns the code builds
(`cmd + "\r\n"` and `cmd + "\n"` are never empty). -/
def replaceAll (pat rep s : Str) : Str := replaceAllGo pat rep 0 s

/-- Python `s.split(pat)[0]` for a nonempty separator: the prefix of `s`
before the first occurrence of `pat` (all of `s` when `pat` does not occur). -/
def takeBeforeFirst (pat : Str) : Str → Str
  | [] => []
  | c :: rest => if List.isPrefixOf pat (c :: rest) then [] else c :: takeBeforeFirst pat rest

/-- Position of the first occurrence of `pat` in `s`, if any. -/
def firstOccIdx (pat s : Str) : Option Nat :=
  (List.range (s.length + 1)).find? (fun i => List.isPrefixOf pat (s.drop i))

/-- Truncation of `s` at the first occurrence of `pat`, phrased through the
first-occurrence index (used as an independent formulation of
"the first occurrence wins"). -/
def truncFirst (pat s : Str) : Str :=
  match firstOccIdx pat s with
  | some i => s.take i
  | none => s

/-- Bytes of the line terminator `"\r\n"` the interfaces append by default. -/
def crlf : Str := ['\r', '\n']

/-- Bytes of a bare `"\n"`. -/
def nl : Str := ['\n']

/-- Sentinel returned by `TelnetInterface.read_until` for a truly empty read. -/
def noOutputMsg : Str := lit "No output received"

/-- Synthetic result recorded for a `reboot` command. -/
def rebootMsg : Str := lit "Reboot command sent"

/-- Session header appended to an output file; the wall-clock timestamp of
`datetime.now()` is abstracted to a fixed placeholder. -/
def sessionHeader : Str := lit "=== Session started at <timestamp> ==="

/-- The 50-character separator `'='*50` of the transcript format. -/
def sep50 : Str := List.replicate 50 '='

/-- Transcript block `"\nCommand: <cmd>\n<cleaned>\n<separator>\n"` written
for each executed command. -/
def logEntry (cmd cleaned : Str) : Str :=
  lit "\nCommand: " ++ cmd ++ nl ++ cleaned ++ nl ++ sep50 ++ nl

/-- Polling loop of `SerialInterface.read_until` (lines 115-126): drain a
chunk, append it to the buffer, return the buffer as soon as any (already
stripped) pattern occurs in it; when the chunk list (the timeout window) is
exhausted, return the buffer as is. -/
def srLoop (pats : List Str) (buffer : Str) : List Str → Str
  | [] => buffer
  | d :: rest =>
    if pats.any (fun p => containsSub p (buffer ++ d)) then buffer ++ d
    else srLoop pats (buffer ++ d) rest

/-- Model of `SerialInterface.read_until` (serial_interface.py lines 105-126).
`chunks` lists the data drained at each poll of the timeout window; the
string-or-list normalisation of `patterns` is done by the caller passing a
list.  Note line 113: `patterns = [p.strip() for p in patterns]`. -/
def SerialInterface.read_until (patterns : List Str) (chunks : List Str) : Str :=
  srLoop (patterns.map pyStrip) [] chunks

/-- Model of one `telnetlib.Telnet.expect` attempt on the data `d` that
arrived during that attempt: the first pattern (in list order) occurring in
`d` matches, and the text up to and including the first occurrence of that
pattern is consumed and returned.  The prompts this repository passes contain
no regex metacharacters, so a literal-substring search is faithful. -/
def tnExpect (pats : List Str) (d : Str) : Option Str :=
  match pats.find? (fun p => containsSub p d) with
  | some p => some (takeBeforeFirst p d ++ p)
  | none => none

/-- Per-attempt data of the `max_retries` expect attempts of
`TelnetInterface.read_until`; attempts beyond the given data see nothing. -/
def tnAttemptData (attempts : List Str) (max_retries : Nat) : List Str :=
  (List.range max_retries).map (fun i => attempts.getD i [])

/-- Retry loop of `TelnetInterface.read_until` (lines 95-111): each attempt
appends the data `expect` returned to the buffer and returns on a match;
after the last attempt the buffer is returned, with the sentinel
`"No output received"` substituted for an empty buffer (line 109). -/
def tnLoop (pats : List Str) (buffer : Str) : List Str → Str
  | [] => if buffer = [] then noOutputMsg else buffer
  | d :: rest =>
    match tnExpect pats d with
    | some matched => buffer ++ matched
    | none => tnLoop pats (buffer ++ d) rest

/-- Model of `TelnetInterface.read_until` (telnet_interface.py lines 87-111).
Patterns are encoded (line 92) but not stripped.  `attempts` lists the data
arriving during each expect attempt; timeouts are abstracted into attempts
that simply deliver their data without a match. -/
def TelnetInterface.read_until (patterns : List Str) (attempts : List Str)
    (max_retries : Nat) : Str :=
  tnLoop patterns [] (tnAttemptData attempts max_retries)

/-- Model of `SerialInterface._clean_output` / `TelnetInterface._clean_output`
(identical code): `output.replace(cmd+"\r\n","").replace(cmd+"\n","")`, then
`split(prompt)[0]` when the prompt occurs, then `.strip()`.  `none` models
the `ValueError` Python's `split` raises on an empty separator (an empty
prompt satisfies `prompt in cleaned`, so the split is always reached then). -/
def clean_output (output cmd prompt : Str) : Option Str :=
  let cleaned := replaceAll (cmd ++ nl) [] (replaceAll (cmd ++ crlf) [] output)
  if containsSub prompt cleaned then
    if prompt = [] then none
    else some (pyStrip (takeBeforeFirst prompt cleaned))
  else some (pyStrip cleaned)

/-- Modelled from the claim's wording (C3), not from the source: remove
exactly one leading occurrence of the command echo (CRLF variant checked
first), truncate at the first occurrence of the prompt, and do nothing else. -/
def clean_output_claimed (output cmd prompt : Str) : Str :=
  let deEchoed :=
    if List.isPrefixOf (cmd ++ crlf) output then output.drop (cmd ++ crlf).length
    else if List.isPrefixOf (cmd ++ nl) output then output.drop (cmd ++ nl).length
    else output
  takeBeforeFirst prompt deEchoed

/-- Model of `SerialInterface.send_command` (lines 96-103): raises when the
connection is down, otherwise writes `command + end` and returns the bytes
written.  `TelnetInterface.send_command` writes the same bytes (after a
non-blocking drain of stale input, which discards no modelled state). -/
def SerialInterface.send_command (conn_open : Bool) (command endStr : Str) :
    Except Unit Str :=
  if conn_open then Except.ok (command ++ endStr) else Except.error ()

/-- Model of `SerialInterface.login` (lines 62-94).  `chunks1`, `chunks2`,
`chunks3` are the data windows of the three `read_until` calls.  The value is
the returned boolean together with the transcript of transport writes; any
exception is caught and turned into `False` (line 92), with the only modelled
raise being the first `send_command` on a closed connection. -/
def SerialInterface.login (conn_open : Bool)
    (username password login_prompt password_prompt main_prompt : Str)
    (chunks1 chunks2 chunks3 : List Str) : Bool × List Str :=
  if conn_open then
    let response := SerialInterface.read_until [login_prompt, main_prompt] chunks1
    if containsSub main_prompt response then (true, [crlf ++ crlf])
    else if containsSub login_prompt response then
      let _r2 := SerialInterface.read_until [password_prompt] chunks2
      let sends := [crlf ++ crlf, username ++ crlf, password, crlf ++ crlf]
      if SerialInterface.read_until [main_prompt] chunks3 = [] then (false, sends)
      else (true, sends)
    else (false, [crlf ++ crlf])
  else (false, [])

/-- Model of `TelnetInterface.login` (lines 38-68).  There is no
main-prompt check before sending the username; each prompt check only tests
the truthiness of the `read_until` result. -/
def TelnetInterface.login (conn_open : Bool)
    (username password login_prompt password_prompt main_prompt : Str)
    (chunks1 chunks2 chunks3 : List Str) : Bool × List Str :=
  if conn_open then
    let r1 := TelnetInterface.read_until [login_prompt] chunks1 3
    if r1 = [] then (false, [])
    else
      let r2 := TelnetInterface.read_until [password_prompt] chunks2 3
      if r2 = [] then (false, [username ++ crlf])
      else
        let sends := [username ++ crlf, password, crlf ++ crlf]
        if TelnetInterface.read_until [main_prompt] chunks3 3 = [] then (false, sends)
        else (true, sends)
  else (false, [])

/-- Environment behaviour of one command of a batch: the send raises, the
read (or anything after the send) raises, or the device delivers `chunks`
to the prompt wait. -/
inductive CmdOutcome where
  | sendRaise : CmdOutcome
  | readRaise : CmdOutcome
  | recv : List Str → CmdOutcome

/-- Observable state threaded through `execute_commands`: the Python results
dict (as an ordered key-value list), the transport writes, and the lines
appended to the output file. -/
structure ExecState where
  results : List (Str × Option Str)
  sent : List Str
  sink : List Str

/-- Python dict assignment `d[k] = v`: update the existing entry in place, or
append a new one. -/
def pyDictInsert (k : Str) (v : Option Str) : List (Str × Option Str) → List (Str × Option Str)
  | [] => [(k, v)]
  | (k', v') :: rest =>
    if k' = k then (k', v) :: rest else (k', v') :: pyDictInsert k v rest

/-- Python dict lookup `d.get(k)`. -/
def pyLookup (k : Str) : List (Str × Option Str) → Option (Option Str)
  | [] => none
  | (k', v) :: rest => if k' = k then some v else pyLookup k rest

/-- Effect of one iteration of the `execute_commands` loop body
(serial_interface.py lines 168-188, telnet_interface.py lines 153-173) on
command `cmd` with environment behaviour `oc`: the recorded result value
(`none` models Python `None` from the `except` branch), the transport writes,
and the output-file appends.  `rd` is the transport's prompt wait
(`read_until`), `log` tells whether an output file is open. -/
def execStep (rd : Str → List Str → Str) (prompt : Str) (log : Bool)
    (cmd : Str) (oc : CmdOutcome) : Option Str × List Str × List Str :=
  match oc with
  | CmdOutcome.sendRaise => (none, [], [])
  | CmdOutcome.readRaise =>
    if pyStrip cmd = lit "reboot" then (some rebootMsg, [cmd ++ crlf], [])
    else (none, [cmd ++ crlf], [])
  | CmdOutcome.recv chunks =>
    if pyStrip cmd = lit "reboot" then (some rebootMsg, [cmd ++ crlf], [])
    else
      match clean_output (rd prompt chunks) cmd prompt with
      | none => (none, [cmd ++ crlf], [])
      | some cleaned =>
        (some cleaned, [cmd ++ crlf], if log then [logEntry cmd cleaned] else [])

/-- The `for cmd in commands` loop of `execute_commands`: each command's
outcome is folded into the state, and the loop always continues to the next
command (the per-command `try/except` turns any failure into a `None`
result). -/
def exec_loop (rd : Str → List Str → Str) (prompt : Str) (log : Bool)
    (outcome : Nat → CmdOutcome) : List Str → Nat → ExecState → ExecState
  | [], _, st => st
  | cmd :: rest, i, st =>
    exec_loop rd prompt log outcome rest (i + 1)
      ⟨pyDictInsert cmd (execStep rd prompt log cmd (outcome i)).1 st.results,
       st.sent ++ (execStep rd prompt log cmd (outcome i)).2.1,
       st.sink ++ (execStep rd prompt log cmd (outcome i)).2.2⟩

/-- The prompt wait `execute_commands` uses on serial: `read_until(prompt)`
wraps the single string into a list. -/
def serialPromptRead (prompt : Str) (chunks : List Str) : Str :=
  SerialInterface.read_until [prompt] chunks

/-- The prompt wait `execute_commands` uses on Telnet: default
`max_retries=3`. -/
def telnetPromptRead (prompt : Str) (chunks : List Str) : Str :=
  TelnetInterface.read_until [prompt] chunks 3

/-- Result value recorded for the last occurrence of command `k` in the rest
of the batch (used to state the last-write-wins property). -/
def lastExecValue (rd : Str → List Str → Str) (prompt : Str) (log : Bool)
    (outcome : Nat → CmdOutcome) : List Str → Nat → Str → Option (Option Str)
  | [], _, _ => none
  | cmd :: rest, i, k =>
    match lastExecValue rd prompt log outcome rest (i + 1) k with
    | some v => some v
    | none => if cmd = k then some (execStep rd prompt log cmd (outcome i)).1 else none

/-- Model of `SerialInterface.execute_commands` (lines 159-195).  When an
output file is requested, the append-mode open happens before any command is
processed; a failing open (`open_fails`) escapes as an exception whose
payload records the transport writes made so far (none).  Otherwise the
command loop runs to completion and the final state is returned. -/
def SerialInterface.execute_commands (commands : List Str) (prompt : Str)
    (output_file : Option Str) (open_fails : Bool)
    (outcome : Nat → CmdOutcome) : Except (List Str) ExecState :=
  match output_file with
  | none => Except.ok (exec_loop serialPromptRead prompt false outcome commands 0 ⟨[], [], []⟩)
  | some _ =>
    if open_fails then Except.error []
    else Except.ok (exec_loop serialPromptRead prompt true outcome commands 0
      ⟨[], [], [sessionHeader]⟩)

/-- Model of `TelnetInterface.execute_commands` (lines 144-180); identical
control flow over the Telnet prompt wait. -/
def TelnetInterface.execute_commands (commands : List Str) (prompt : Str)
    (output_file : Option Str) (open_fails : Bool)
    (outcome : Nat → CmdOutcome) : Except (List Str) ExecState :=
  match output_file with
  | none => Except.ok (exec_loop telnetPromptRead prompt false outcome commands 0 ⟨[], [], []⟩)
  | some _ =>
    if open_fails then Except.error []
    else Except.ok (exec_loop telnetPromptRead prompt true outcome commands 0
      ⟨[], [], [sessionHeader]⟩)

/-- Model of `SerialInterface.disconnect` (lines 205-215).  The state is
`some is_open` for a held handle, `none` after cleanup.  A failing
`close()` is logged and re-raised (line 214), so the attribute reset on line
215 is not reached and the error escapes. -/
def SerialInterface.disconnect (conn : Option Bool) (close_raises : Bool) :
    Except Unit (Option Bool) :=
  match conn with
  | some true => if close_raises then Except.error () else Except.ok none
  | some false => Except.ok none
  | none => Except.ok none

/-- Model of `TelnetInterface.disconnect` (lines 190-200): same shape with a
truthiness check on the handle only. -/
def TelnetInterface.disconnect (conn : Bool) (close_raises : Bool) :
    Except Unit Bool :=
  if conn then (if close_raises then Except.error () else Except.ok false)
  else Except.ok false

/-- Model of `SerialInterface.stream_command` (lines 128-157) run until the
external `KeyboardInterrupt` arrives after `chunks` were drained and echoed:
the command is sent, every chunk is printed, and the interrupt handler sends
`'\x03'` through `send_command` — which appends the default `"\r\n"` (line
154 with line 102).  The value is the transport writes, the echoed chunks,
and the connection flag afterwards (the transport is never closed here). -/
def SerialInterface.stream_command (conn_open : Bool) (command : Str)
    (chunks : List Str) : Except Unit (List Str × List Str × Bool) :=
  match SerialInterface.send_command conn_open command crlf with
  | Except.error _ => Except.error ()
  | Except.ok w1 =>
    match SerialInterface.send_command conn_open ['\x03'] crlf with
    | Except.error _ => Except.error ()
    | Except.ok w2 => Except.ok ([w1, w2], chunks, conn_open)

/-- Model of `TelnetInterface.stream_command` (lines 113-142): the interrupt
handler writes the single byte `b'\x03'` directly via `tn.write` (line 139),
bypassing `send_command`. -/
def TelnetInterface.stream_command (conn_open : Bool) (command : Str)
    (chunks : List Str) : Except Unit (List Str × List Str × Bool) :=
  if conn_open then Except.ok ([command ++ crlf, ['\x03']], chunks, conn_open)
  else Except.error ()

/-- Buffer-generalised form of the amended serial pattern-wait reading: the
loop returns the accumulation of the earliest poll whose buffer contains some
pattern, and the whole accumulation when no poll ever does. -/
def srBufSpec (pats : List Str) (buffer : Str) (chunks : List Str) : Str :=
  match (List.range chunks.length).find?
      (fun k => pats.any (fun p => containsSub p (buffer ++ (chunks.take (k + 1)).flatten))) with
  | some k => buffer ++ (chunks.take (k + 1)).flatten
  | none => buffer ++ chunks.flatten

/-- Modelled from the amended reading of the serial pattern wait: the loop
returns the accumulated data of the earliest poll whose buffer contains some
fully stripped pattern, and the whole accumulation when no poll ever does. -/
def serialReadSpec (patterns : List Str) (chunks : List Str) : Str :=
  srBufSpec (patterns.map pyStrip) [] chunks

/-! ### Basic facts about the string helpers -/

theorem containsSub_iff (pat s : Str) : containsSub pat s = true ↔ pat <:+: s := by
  induction s with
  | nil =>
    simp only [containsSub]
    rw [ List.isPrefixOf_iff_prefix, List.prefix_nil, List.infix_nil]
  | cons c rest ih =>
    simp only [containsSub, Bool.or_eq_true]
    rw [ List.isPrefixOf_iff_prefix, ih, List.infix_cons_iff]

theorem containsSub_mono {pat s : Str} (t : Str) (h : containsSub pat s = true) :
    containsSub pat (s ++ t) = true := by
  rw [containsSub_iff] at h ⊢
  exact h.trans ⟨[], t, by simp⟩

theorem containsSub_nil_left (s : Str) : containsSub [] s = true := by
  cases s <;> simp [containsSub, List.isPrefixOf]

/-- Equality of `find?` under pointwise-equal predicates. -/
theorem find_eq_of_pred_eq {α : Type} (f g : α → Bool) :
    ∀ l : List α, (∀ x ∈ l, f x = g x) → l.find? f = l.find? g := by
  intro l
  induction l with
  | nil => intro _; rfl
  | cons a t ih =>
    intro h
    have ha := h a (List.mem_cons_self a t)
    simp only [List.find?]
    rw [ha]
    cases g a
    · exact ih (fun x hx => h x (List.mem_cons_of_mem a hx))
    · rfl

/-! ### C1: behaviour of `read_until` when no pattern ever arrives -/

theorem srLoop_exhaust (pats : List Str) :
    ∀ (chunks : List Str) (buffer : Str),
      (∀ p ∈ pats, containsSub p (buffer ++ chunks.flatten) = false) →
      srLoop pats buffer chunks = buffer ++ chunks.flatten := by
  intro chunks
  induction chunks with
  | nil => intro buffer _; simp [srLoop]
  | cons d rest ih =>
    intro buffer h
    have hflat : ∀ p ∈ pats, containsSub p ((buffer ++ d) ++ rest.flatten) = false := by
      intro p hp
      have := h p hp
      rwa [List.flatten_cons, ← List.append_assoc] at this
    have hany : (pats.any fun p => containsSub p (buffer ++ d)) = false := by
      rw [List.any_eq_false]
      intro p hp hc
      have := containsSub_mono rest.flatten hc
      rw [hflat p hp] at this
      exact Bool.false_ne_true this
    simp only [srLoop, hany, Bool.false_eq_true, if_false]
    rw [ih (buffer ++ d) hflat, List.flatten_cons, List.append_assoc]

theorem tnLoop_exhaust (pats : List Str) :
    ∀ (l : List Str) (buffer : Str),
      (∀ p ∈ pats, ∀ d ∈ l, containsSub p d = false) →
      tnLoop pats buffer l =
        if buffer ++ l.flatten = [] then noOutputMsg else buffer ++ l.flatten := by
  intro l
  induction l with
  | nil => intro buffer _; simp [tnLoop]
  | cons d rest ih =>
    intro buffer h
    have hexp : tnExpect pats d = none := by
      unfold tnExpect
      have hfind : pats.find? (fun p => containsSub p d) = none := by
        rw [List.find?_eq_none]
        intro p hp
        simp [h p hp d (List.mem_cons_self d rest)]
      rw [hfind]
    simp only [tnLoop, hexp]
    rw [ih (buffer ++ d) (fun p hp e he => h p hp e (List.mem_cons_of_mem d he)),
      List.flatten_cons, List.append_assoc]

/-- C1 (amended): on both transports a `read_until` whose patterns never
arrive returns normally after the timeout-and-retries budget with whatever
was accumulated; the Telnet transport substitutes the sentinel
`"No output received"` for a truly empty accumulation, while the serial
transport returns the accumulation as is — an empty string when nothing was
received.  (The claim's assertion that the sentinel also appears on the
serial transport is refuted by `serial_empty_read_not_sentinel`.) -/
theorem read_until_budget_exhausted :
    (∀ (patterns chunks : List Str),
      (∀ p ∈ patterns, containsSub (pyStrip p) chunks.flatten = false) →
      SerialInterface.read_until patterns chunks = chunks.flatten)
    ∧ (∀ (patterns attempts : List Str) (max_retries : Nat),
      (∀ p ∈ patterns, ∀ i, i < max_retries → containsSub p (attempts.getD i []) = false) →
      TelnetInterface.read_until patterns attempts max_retries =
        if (tnAttemptData attempts max_retries).flatten = [] then noOutputMsg
        else (tnAttemptData attempts max_retries).flatten) := by
  constructor
  · intro patterns chunks h
    unfold SerialInterface.read_until
    have := srLoop_exhaust (patterns.map pyStrip) chunks []
      (by
        intro p hp
        obtain ⟨q, hq, rfl⟩ := List.mem_map.1 hp
        simpa using h q hq)
    simpa using this
  · intro patterns attempts max_retries h
    unfold TelnetInterface.read_until
    have := tnLoop_exhaust patterns (tnAttemptData attempts max_retries) []
      (by
        intro p hp d hd
        obtain ⟨i, hi, rfl⟩ := List.mem_map.1 hd
        exact h p hp i (List.mem_range.1 hi))
    simpa using this

/-- Witness for `read_until_budget_exhausted` at a concrete never-matching
input: the serial read returns the empty accumulation, the Telnet read
returns the sentinel. -/
theorem read_until_budget_exhausted_witness :
    SerialInterface.read_until [lit "#"] [lit "abc"] = lit "abc"
    ∧ TelnetInterface.read_until [lit "#"] [] 3 = noOutputMsg := by
  constructor
  · exact (read_until_budget_exhausted.1 [lit "#"] [lit "abc"] (by decide)).trans (by decide)
  · exact (read_until_budget_exhausted.2 [lit "#"] [] 3 (by decide)).trans (by decide)

/-- C1 counterexample: a serial `read_until` that receives nothing returns
the empty string, not the distinguished sentinel the claim asserts for both
transports. -/
theorem serial_empty_read_not_sentinel :
    SerialInterface.read_until [lit "#"] [] = [] ∧ ([] : Str) ≠ noOutputMsg := by decide

/-! ### C9: what the pattern wait actually matches on -/

theorem srLoop_eq_spec (pats : List Str) :
    ∀ (chunks : List Str) (buffer : Str),
      srLoop pats buffer chunks = srBufSpec pats buffer chunks := by
  intro chunks
  induction chunks with
  | nil => intro buffer; simp [srLoop, srBufSpec]
  | cons d rest ih =>
    intro buffer
    have htake : ∀ k : Nat,
        buffer ++ ((d :: rest).take (k + 1 + 1)).flatten
          = (buffer ++ d) ++ (rest.take (k + 1)).flatten := by
      intro k
      rw [List.take_succ_cons, List.flatten_cons, ← List.append_assoc]
    by_cases h0 : (pats.any fun p => containsSub p (buffer ++ d)) = true
    · have hp0 : (fun k => pats.any fun p =>
          containsSub p (buffer ++ ((d :: rest).take (k + 1)).flatten)) 0 = true := by
        simpa using h0
      unfold srBufSpec
      rw [List.length_cons, List.range_succ_eq_map,
        @List.find?_cons_of_pos Nat
          (fun k => pats.any fun p =>
            containsSub p (buffer ++ ((d :: rest).take (k + 1)).flatten))
          0 (List.map Nat.succ (List.range rest.length)) hp0]
      simp only [srLoop, h0, if_true]
      simp
    · have hp0 : ¬ (fun k => pats.any fun p =>
          containsSub p (buffer ++ ((d :: rest).take (k + 1)).flatten)) 0 = true := by
        simpa using h0
      unfold srBufSpec
      rw [List.length_cons, List.range_succ_eq_map,
        @List.find?_cons_of_neg Nat
          (fun k => pats.any fun p =>
            containsSub p (buffer ++ ((d :: rest).take (k + 1)).flatten))
          0 (List.map Nat.succ (List.range rest.length)) hp0,
        List.find?_map]
      have hcongr :
          List.find?
              ((fun k => pats.any fun p =>
                containsSub p (buffer ++ ((d :: rest).take (k + 1)).flatten)) ∘ Nat.succ)
              (List.range rest.length)
            = List.find?
              (fun k => pats.any fun p =>
                containsSub p ((buffer ++ d) ++ (rest.take (k + 1)).flatten))
              (List.range rest.length) := by
        apply find_eq_of_pred_eq
        intro k _
        simp only [Function.comp_apply, Nat.succ_eq_add_one]
        rw [htake k]
      rw [hcongr, Bool.not_eq_true] at *
      simp only [srLoop, h0, Bool.false_eq_true, if_false]
      rw [ih (buffer ++ d)]
      unfold srBufSpec
      cases hf : List.find?
          (fun k => pats.any fun p =>
            containsSub p ((buffer ++ d) ++ (rest.take (k + 1)).flatten))
          (List.range rest.length) with
      | none => simp [hf, List.flatten_cons, List.append_assoc]
      | some k => simp [hf, htake k]

/-- C9 (amended): the serial `read_until` matches each pattern after a full
strip — leading AND trailing whitespace removed — and returns the
accumulation of the earliest poll whose buffer contains a stripped pattern
(the whole accumulation when none ever does); the Telnet `read_until` does
not trim patterns at all: an expect attempt matches exactly when some
pattern occurs verbatim in that attempt's data.  (The claim's
trailing-only trim applying to both transports is refuted by
`telnet_pattern_not_stripped`.) -/
theorem read_until_pattern_matching :
    (∀ (patterns chunks : List Str),
      SerialInterface.read_until patterns chunks = serialReadSpec patterns chunks)
    ∧ (∀ (pats : List Str) (d : Str),
      (tnExpect pats d).isSome = pats.any (fun p => containsSub p d)) := by
  constructor
  · intro patterns chunks
    exact srLoop_eq_spec (patterns.map pyStrip) chunks []
  · intro pats d
    unfold tnExpect
    cases hf : pats.find? (fun p => containsSub p d) with
    | none =>
      simp only [hf, Option.isSome_none]
      exact (List.any_eq_false.2 (List.find?_eq_none.1 hf)).symm
    | some p =>
      simp only [hf, Option.isSome_some]
      exact (List.any_eq_true.2
        ⟨p, List.mem_of_find?_eq_some hf, List.find?_some hf⟩).symm

/-- C9 counterexample: with pattern `"#  "` (trailing blanks) the Telnet
reader fails to match incoming data `"#"` even though the
trailing-whitespace-trimmed pattern occurs in it, and keeps accumulating
instead of returning at that point — the Telnet transport does not trim
patterns before matching. -/
theorem telnet_pattern_not_stripped :
    TelnetInterface.read_until [lit "#  "] [lit "#", lit "Z"] 3 = lit "#Z"
    ∧ containsSub (pyRStrip (lit "#  ")) (lit "#") = true
    ∧ lit "#Z" ≠ lit "#" := by decide

/-! ### C3: characterisation of the output cleaning step -/

theorem firstOccIdx_eq_none (pat s : Str) (h : containsSub pat s = false) :
    firstOccIdx pat s = none := by
  unfold firstOccIdx
  rw [List.find?_eq_none]
  intro i _ hpre
  rw [ List.isPrefixOf_iff_prefix] at hpre
  have hinf : pat <:+: s :=
    List.infix_iff_prefix_suffix.2 ⟨s.drop i, hpre, List.drop_suffix i s⟩
  rw [← containsSub_iff, h] at hinf
  exact Bool.false_ne_true hinf

theorem takeBeforeFirst_eq_truncFirst (pat : Str) (hp : pat ≠ []) :
    ∀ s : Str, takeBeforeFirst pat s = truncFirst pat s := by
  intro s
  induction s with
  | nil =>
    cases pat with
    | nil => exact absurd rfl hp
    | cons a q =>
      simp [takeBeforeFirst, truncFirst, firstOccIdx, List.range_succ, List.find?,
        List.isPrefixOf]
  | cons c rest ih =>
    by_cases hpre : List.isPrefixOf pat (c :: rest) = true
    · have h0 : (fun i => List.isPrefixOf pat ((c :: rest).drop i)) 0 = true := by
        simpa using hpre
      unfold truncFirst firstOccIdx
      rw [List.length_cons, List.range_succ_eq_map,
        @List.find?_cons_of_pos Nat (fun i => List.isPrefixOf pat ((c :: rest).drop i)) 0
          (List.map Nat.succ (List.range (rest.length + 1))) h0]
      simp [takeBeforeFirst, hpre]
    · have h0 : ¬ (fun i => List.isPrefixOf pat ((c :: rest).drop i)) 0 = true := by
        simpa using hpre
      unfold truncFirst firstOccIdx
      rw [List.length_cons, List.range_succ_eq_map,
        @List.find?_cons_of_neg Nat (fun i => List.isPrefixOf pat ((c :: rest).drop i)) 0
          (List.map Nat.succ (List.range (rest.length + 1))) h0,
        List.find?_map]
      have hcongr : List.find?
            ((fun i => List.isPrefixOf pat ((c :: rest).drop i)) ∘ Nat.succ)
            (List.range (rest.length + 1))
          = List.find? (fun i => List.isPrefixOf pat (rest.drop i))
            (List.range (rest.length + 1)) := by
        apply find_eq_of_pred_eq
        intro i _
        simp only [Function.comp_apply, Nat.succ_eq_add_one, List.drop_succ_cons]
      rw [hcongr, Bool.not_eq_true] at *
      simp only [takeBeforeFirst, hpre, Bool.false_eq_true, if_false]
      rw [ih]
      unfold truncFirst firstOccIdx
      cases hf : List.find? (fun i => List.isPrefixOf pat (rest.drop i))
          (List.range (rest.length + 1)) with
      | none => simp [hf]
      | some i => simp [hf, List.take_succ_cons]

/-- C3 (amended): the cleaning step removes EVERY non-overlapping occurrence
of the command echo anywhere in the output — first all `cmd+"\r\n"`
occurrences, then all `cmd+"\n"` occurrences of the result — truncates at
the first occurrence of the prompt when the nonempty prompt occurs at all,
and finally strips leading and trailing whitespace; an empty prompt makes
the underlying `split` raise.  (The claim's "exactly one leading echo,
doing nothing else" is refuted by `clean_output_removes_every_echo`.) -/
theorem clean_output_characterised :
    (∀ output cmd prompt : Str, prompt ≠ [] →
      clean_output output cmd prompt =
        some (pyStrip (truncFirst prompt
          (replaceAll (cmd ++ nl) [] (replaceAll (cmd ++ crlf) [] output)))))
    ∧ (∀ output cmd : Str, clean_output output cmd [] = none) := by
  constructor
  · intro output cmd prompt hp
    simp only [clean_output]
    cases hc : containsSub prompt
        (replaceAll (cmd ++ nl) [] (replaceAll (cmd ++ crlf) [] output)) with
    | true => simp [hc, hp, takeBeforeFirst_eq_truncFirst prompt hp]
    | false =>
      have hnone := firstOccIdx_eq_none prompt _ hc
      simp [hc, truncFirst, hnone]
  · intro output cmd
    simp [clean_output, containsSub_nil_left]

/-- Witness for `clean_output_characterised` at a concrete input with a
nonempty prompt. -/
theorem clean_output_characterised_witness :
    lit "#" ≠ [] ∧
    clean_output (lit "ls\r\nUP 3 days\r\n# done") (lit "ls") (lit "#") =
      some (pyStrip (truncFirst (lit "#")
        (replaceAll (lit "ls" ++ nl) [] (replaceAll (lit "ls" ++ crlf) []
          (lit "ls\r\nUP 3 days\r\n# done"))))) :=
  ⟨by decide, clean_output_characterised.1 _ _ _ (by decide)⟩

/-- C3 counterexample: the cleaning removes every occurrence of the echoed
command (and additionally strips surrounding whitespace), not just one
leading occurrence: on `"ls\r\nA ls\r\nB #"` the code yields `"A B"`, while
the claimed one-leading-echo-only cleaning yields `"A ls\r\nB "`. -/
theorem clean_output_removes_every_echo :
    clean_output (lit "ls\r\nA ls\r\nB #") (lit "ls") (lit "#") = some (lit "A B")
    ∧ clean_output_claimed (lit "ls\r\nA ls\r\nB #") (lit "ls") (lit "#") = lit "A ls\r\nB "
    ∧ lit "A ls\r\nB " ≠ lit "A B" := by decide

/-! ### C2: login behaviour when the main prompt is observed first -/

theorem tnLoop_ne_nil (pats : List Str) (hp : ∀ p ∈ pats, p ≠ []) :
    ∀ (l : List Str) (buffer : Str), tnLoop pats buffer l ≠ [] := by
  intro l
  induction l with
  | nil =>
    intro buffer
    unfold tnLoop
    by_cases hb : buffer = [] <;> simp [hb, noOutputMsg, lit]
  | cons d rest ih =>
    intro buffer
    unfold tnLoop
    cases hexp : tnExpect pats d with
    | none => exact ih (buffer ++ d)
    | some m =>
      unfold tnExpect at hexp
      cases hf : pats.find? (fun p => containsSub p d) with
      | none => rw [hf] at hexp; exact absurd hexp (by simp)
      | some q =>
        rw [hf] at hexp
        have hm : m = takeBeforeFirst q d ++ q := by
          have := hexp
          simp only [Option.some.injEq] at this
          exact this.symm
        have hq : q ≠ [] := hp q (List.mem_of_find?_eq_some hf)
        simp only [hm]
        intro hcontra
        rcases List.append_eq_nil.1 hcontra with ⟨-, h2⟩
        rcases List.append_eq_nil.1 h2 with ⟨-, h4⟩
        exact hq h4

theorem telnet_read_ne_nil (p : Str) (hp : p ≠ []) (attempts : List Str)
    (max_retries : Nat) : TelnetInterface.read_until [p] attempts max_retries ≠ [] := by
  unfold TelnetInterface.read_until
  exact tnLoop_ne_nil [p] (by simpa using hp) (tnAttemptData attempts max_retries) []

/-- C2 (amended): on the serial transport, when the first `read_until`
observes the main shell prompt, `login` returns `true` having written only
the initial bare line break — neither the username nor the password is sent
(idempotent login).  The Telnet transport has no such check: with nonempty
prompt strings its `login` always sends the username, the password and the
final line break and always returns `true`, whatever the device answers
(every prompt test only checks truthiness of `read_until`, which never
returns an empty string).  (The claim's idempotent login on the Telnet
transport is refuted by `telnet_login_sends_credentials`.) -/
theorem login_idempotent_serial_only :
    (∀ (username password login_prompt password_prompt main_prompt : Str)
      (chunks1 chunks2 chunks3 : List Str),
      containsSub main_prompt
          (SerialInterface.read_until [login_prompt, main_prompt] chunks1) = true →
      SerialInterface.login true username password login_prompt password_prompt main_prompt
          chunks1 chunks2 chunks3 = (true, [crlf ++ crlf]))
    ∧ (∀ (username password login_prompt password_prompt main_prompt : Str)
      (chunks1 chunks2 chunks3 : List Str),
      login_prompt ≠ [] → password_prompt ≠ [] → main_prompt ≠ [] →
      TelnetInterface.login true username password login_prompt password_prompt main_prompt
          chunks1 chunks2 chunks3 =
        (true, [username ++ crlf, password, crlf ++ crlf])) := by
  constructor
  · intro username password login_prompt password_prompt main_prompt c1 c2 c3 h
    simp [SerialInterface.login, h]
  · intro username password login_prompt password_prompt main_prompt c1 c2 c3 h1 h2 h3
    simp [TelnetInterface.login, telnet_read_ne_nil login_prompt h1 c1 3,
      telnet_read_ne_nil password_prompt h2 c2 3, telnet_read_ne_nil main_prompt h3 c3 3]

/-- Witness for `login_idempotent_serial_only`: a device already at the `#`
prompt.  The serial login succeeds writing only the line break; the Telnet
login "succeeds" too but writes the credentials. -/
theorem login_idempotent_serial_only_witness :
    SerialInterface.login true (lit "admin") (lit "pw") (lit "login:") (lit "Password:")
        (lit "#") [lit "gw # "] [] [] = (true, [crlf ++ crlf])
    ∧ TelnetInterface.login true (lit "admin") (lit "pw") (lit "login:") (lit "Password:")
        (lit "#") [lit "gw # "] [] [] =
      (true, [lit "admin" ++ crlf, lit "pw", crlf ++ crlf]) :=
  ⟨login_idempotent_serial_only.1 _ _ _ _ _ _ _ _ (by decide),
   login_idempotent_serial_only.2 _ _ _ _ _ _ _ _ (by decide) (by decide) (by decide)⟩

/-- C2 counterexample: on the Telnet transport, with the main prompt `#`
observed first (and no login prompt at all), `login` still sends the
username and the password. -/
theorem telnet_login_sends_credentials :
    containsSub (lit "#") (lit "gw # ") = true
    ∧ containsSub (lit "login:") (lit "gw # ") = false
    ∧ TelnetInterface.login true (lit "admin") (lit "pw") (lit "login:") (lit "Password:")
        (lit "#") [lit "gw # "] [] [] =
      (true, [lit "admin" ++ crlf, lit "pw", crlf ++ crlf])
    ∧ (lit "admin" ++ crlf) ∈ [lit "admin" ++ crlf, lit "pw", crlf ++ crlf] := by decide

/-! ### C5: disconnect semantics -/

/-- C5 (amended): `disconnect` is idempotent — after a successful disconnect
(or on a never-connected session) further calls succeed without touching a
transport — but a failure raised while closing the underlying handle is
logged and RE-RAISED, propagating to the caller, on both transports.
(The claim's "never propagates an exception" is refuted by
`disconnect_close_failure_propagates`.) -/
theorem disconnect_idempotent_but_raises :
    (∀ b, SerialInterface.disconnect none b = Except.ok none)
    ∧ SerialInterface.disconnect (some true) false = Except.ok none
    ∧ SerialInterface.disconnect (some true) true = Except.error ()
    ∧ (∀ b, TelnetInterface.disconnect false b = Except.ok false)
    ∧ TelnetInterface.disconnect true false = Except.ok false
    ∧ TelnetInterface.disconnect true true = Except.error () :=
  ⟨fun _ => rfl, rfl, rfl, fun _ => rfl, rfl, rfl⟩

/-- C5 counterexample: a failing close escapes `disconnect` as an exception
on both transports. -/
theorem disconnect_close_failure_propagates :
    SerialInterface.disconnect (some true) true = Except.error ()
    ∧ TelnetInterface.disconnect true true = Except.error () :=
  ⟨rfl, rfl⟩

/-! ### C8: the stream-cancellation interrupt -/

/-- C8 (amended): on cancellation the Telnet session writes exactly the
single interrupt byte `0x03`; the serial session routes the interrupt
through `send_command`, writing `0x03` followed by the default `"\r\n"`
terminator — three bytes.  Neither waits for an acknowledgement and both
leave the session connected (the transport is not closed).  (The claim's
single byte on both transports is refuted by
`serial_interrupt_is_three_bytes`.) -/
theorem stream_cancel_interrupt_writes :
    ∀ (command : Str) (chunks : List Str),
      SerialInterface.stream_command true command chunks =
        Except.ok ([command ++ crlf, '\x03' :: crlf], chunks, true)
      ∧ TelnetInterface.stream_command true command chunks =
        Except.ok ([command ++ crlf, ['\x03']], chunks, true) := by
  intro command chunks
  exact ⟨rfl, rfl⟩

/-- C8 counterexample: the serial cancellation write is the three bytes
`0x03 0x0d 0x0a`, not the single byte `0x03`. -/
theorem serial_interrupt_is_three_bytes :
    SerialInterface.stream_command true (lit "top") [] =
      Except.ok ([lit "top" ++ crlf, ['\x03', '\r', '\n']], [], true)
    ∧ (['\x03', '\r', '\n'] : Str).length ≠ 1 :=
  ⟨rfl, by decide⟩

/-! ### C10: sink-open failure happens before the batch starts -/

/-- C10: when the output file cannot be opened for appending, the exception
escapes `execute_commands` before any command of the batch is processed: the
result is an error (no mapping, not even partial) whose payload — the
transport-write transcript at raise time — is empty, on both transports. -/
theorem execute_commands_sink_open_failure :
    ∀ (cmds : List Str) (prompt f : Str) (outcome : Nat → CmdOutcome),
      SerialInterface.execute_commands cmds prompt (some f) true outcome = Except.error []
      ∧ TelnetInterface.execute_commands cmds prompt (some f) true outcome =
        Except.error [] := by
  intro cmds prompt f outcome
  exact ⟨rfl, rfl⟩

/-! ### Dict and batch-loop lemmas -/

theorem pyLookup_insert (k k' : Str) (v : Option Str) :
    ∀ d, pyLookup k' (pyDictInsert k v d) = if k = k' then some v else pyLookup k' d := by
  intro d
  induction d with
  | nil => simp [pyDictInsert, pyLookup]
  | cons a rest ih =>
    obtain ⟨ak, av⟩ := a
    by_cases hak : ak = k
    · subst hak
      by_cases hk : ak = k' <;> simp [pyDictInsert, pyLookup, hk]
    · by_cases hk2 : ak = k'
      · subst hk2
        have hkk : ¬ k = ak := fun h => hak h.symm
        simp [pyDictInsert, hak, pyLookup, hkk]
      · simp [pyDictInsert, hak, pyLookup, hk2, ih]

theorem keys_insert (k : Str) (v : Option Str) :
    ∀ d : List (Str × Option Str),
      (pyDictInsert k v d).map Prod.fst =
        if k ∈ d.map Prod.fst then d.map Prod.fst else d.map Prod.fst ++ [k] := by
  intro d
  induction d with
  | nil => simp [pyDictInsert]
  | cons a rest ih =>
    obtain ⟨ak, av⟩ := a
    by_cases hak : ak = k
    · subst hak
      simp [pyDictInsert]
    · by_cases hk : k ∈ rest.map Prod.fst <;>
        simp [pyDictInsert, hak, ih, hk, Ne.symm hak]

theorem keys_insert_nodup (k : Str) (v : Option Str) (d : List (Str × Option Str))
    (h : (d.map Prod.fst).Nodup) : ((pyDictInsert k v d).map Prod.fst).Nodup := by
  rw [keys_insert]
  by_cases hk : k ∈ d.map Prod.fst
  · simp [hk, h]
  · simp [hk, List.nodup_append, h, List.disjoint_singleton]

theorem mem_keys_insert (k x : Str) (v : Option Str) (d : List (Str × Option Str)) :
    x ∈ (pyDictInsert k v d).map Prod.fst ↔ x = k ∨ x ∈ d.map Prod.fst := by
  rw [keys_insert]
  by_cases hk : k ∈ d.map Prod.fst
  · rw [if_pos hk]
    exact ⟨Or.inr, fun h => h.elim (fun he => he ▸ hk) id⟩
  · rw [if_neg hk]
    simp [or_comm]

theorem exec_loop_results_nodup (rd : Str → List Str → Str) (prompt : Str) (log : Bool)
    (outcome : Nat → CmdOutcome) :
    ∀ (cmds : List Str) (i : Nat) (st : ExecState),
      (st.results.map Prod.fst).Nodup →
      ((exec_loop rd prompt log outcome cmds i st).results.map Prod.fst).Nodup := by
  intro cmds
  induction cmds with
  | nil => intro i st h; exact h
  | cons cmd rest ih =>
    intro i st h
    simp only [exec_loop]
    exact ih (i + 1) _ (keys_insert_nodup _ _ _ h)

theorem exec_loop_results_mem (rd : Str → List Str → Str) (prompt : Str) (log : Bool)
    (outcome : Nat → CmdOutcome) :
    ∀ (cmds : List Str) (i : Nat) (st : ExecState) (x : Str),
      (x ∈ (exec_loop rd prompt log outcome cmds i st).results.map Prod.fst
        ↔ x ∈ st.results.map Prod.fst ∨ x ∈ cmds) := by
  intro cmds
  induction cmds with
  | nil => intro i st x; simp [exec_loop]
  | cons cmd rest ih =>
    intro i st x
    simp only [exec_loop]
    rw [ih]
    rw [show ((⟨pyDictInsert cmd (execStep rd prompt log cmd (outcome i)).1 st.results,
        st.sent ++ (execStep rd prompt log cmd (outcome i)).2.1,
        st.sink ++ (execStep rd prompt log cmd (outcome i)).2.2⟩ : ExecState).results)
      = pyDictInsert cmd (execStep rd prompt log cmd (outcome i)).1 st.results from rfl]
    rw [mem_keys_insert]
    simp only [List.mem_cons]
    tauto

theorem exec_loop_lookup (rd : Str → List Str → Str) (prompt : Str) (log : Bool)
    (outcome : Nat → CmdOutcome) :
    ∀ (cmds : List Str) (i : Nat) (st : ExecState) (k : Str),
      pyLookup k (exec_loop rd prompt log outcome cmds i st).results =
        match lastExecValue rd prompt log outcome cmds i k with
        | some v => some v
        | none => pyLookup k st.results := by
  intro cmds
  induction cmds with
  | nil => intro i st k; simp [exec_loop, lastExecValue]
  | cons cmd rest ih =>
    intro i st k
    simp only [exec_loop, lastExecValue]
    rw [ih]
    cases hl : lastExecValue rd prompt log outcome rest (i + 1) k with
    | some v => simp [hl]
    | none =>
      simp only [hl]
      rw [pyLookup_insert]
      by_cases hc : cmd = k
      · simp [hc]
      · simp [hc]

/-- C4: `execute_commands` returns a mapping whose key list is duplicate-free
and holds exactly the distinct command strings of the batch — so the number
of keys equals the number of distinct commands — and the entry of every
command is the value of its LAST execution (last write wins on duplicates),
on both transports. -/
theorem execute_commands_distinct_keys_last_write :
    ∀ (prompt : Str) (outcome : Nat → CmdOutcome) (cmds : List Str) (stS stT : ExecState),
      SerialInterface.execute_commands cmds prompt none false outcome = Except.ok stS →
      TelnetInterface.execute_commands cmds prompt none false outcome = Except.ok stT →
      ((stS.results.map Prod.fst).Nodup
        ∧ (∀ x, x ∈ stS.results.map Prod.fst ↔ x ∈ cmds)
        ∧ (stS.results.map Prod.fst).length = cmds.dedup.length
        ∧ (∀ k, pyLookup k stS.results =
            lastExecValue serialPromptRead prompt false outcome cmds 0 k))
      ∧ ((stT.results.map Prod.fst).Nodup
        ∧ (∀ x, x ∈ stT.results.map Prod.fst ↔ x ∈ cmds)
        ∧ (stT.results.map Prod.fst).length = cmds.dedup.length
        ∧ (∀ k, pyLookup k stT.results =
            lastExecValue telnetPromptRead prompt false outcome cmds 0 k)) := by
  intro prompt outcome cmds stS stT hS hT
  simp only [SerialInterface.execute_commands, Except.ok.injEq] at hS
  simp only [TelnetInterface.execute_commands, Except.ok.injEq] at hT
  subst hS
  subst hT
  have key : ∀ rd : Str → List Str → Str,
      (((exec_loop rd prompt false outcome cmds 0 ⟨[], [], []⟩).results.map Prod.fst).Nodup
      ∧ (∀ x, x ∈ (exec_loop rd prompt false outcome cmds 0
          ⟨[], [], []⟩).results.map Prod.fst ↔ x ∈ cmds)
      ∧ ((exec_loop rd prompt false outcome cmds 0
          ⟨[], [], []⟩).results.map Prod.fst).length = cmds.dedup.length
      ∧ (∀ k, pyLookup k (exec_loop rd prompt false outcome cmds 0 ⟨[], [], []⟩).results
          = lastExecValue rd prompt false outcome cmds 0 k)) := by
    intro rd
    have hnd := exec_loop_results_nodup rd prompt false outcome cmds 0 ⟨[], [], []⟩ (by simp)
    have hmem : ∀ x, x ∈ (exec_loop rd prompt false outcome cmds 0
        ⟨[], [], []⟩).results.map Prod.fst ↔ x ∈ cmds := by
      intro x
      rw [exec_loop_results_mem]
      simp
    have hlen :
        ((exec_loop rd prompt false outcome cmds 0
          ⟨[], [], []⟩).results.map Prod.fst).length = cmds.dedup.length := by
      have hperm := (List.perm_ext_iff_of_nodup hnd (List.nodup_dedup cmds)).2
        (fun a => by rw [hmem a, List.mem_dedup])
      exact hperm.length_eq
    refine ⟨hnd, hmem, hlen, ?_⟩
    intro k
    rw [exec_loop_lookup]
    cases hl : lastExecValue rd prompt false outcome cmds 0 k <;> simp [hl, pyLookup]
  exact ⟨key serialPromptRead, key telnetPromptRead⟩

/-- Witness for `execute_commands_distinct_keys_last_write`: a batch with the
duplicated command `"x"`; its retained entry is the last execution's value. -/
theorem execute_commands_distinct_keys_last_write_witness :
    pyLookup (lit "x")
        (exec_loop serialPromptRead (lit "#") false (fun _ => CmdOutcome.recv [lit "ok #"])
          [lit "x", lit "y", lit "x"] 0 ⟨[], [], []⟩).results =
      lastExecValue serialPromptRead (lit "#") false (fun _ => CmdOutcome.recv [lit "ok #"])
        [lit "x", lit "y", lit "x"] 0 (lit "x") :=
  ((execute_commands_distinct_keys_last_write (lit "#")
      (fun _ => CmdOutcome.recv [lit "ok #"]) [lit "x", lit "y", lit "x"]
      _ _ rfl rfl).1.2.2.2) (lit "x")

/-- C6: a per-command failure is caught at per-command granularity: when the
send raises, the loop records the null result for that command and simply
continues with the rest of the batch; when the read (or anything after the
send) raises on a non-reboot command, the null result is recorded after the
command's transport write and the loop continues too; and recording that
null entry leaves the recorded result of every other command unchanged. -/
theorem execute_commands_per_command_isolation :
    ∀ (rd : Str → List Str → Str) (prompt : Str) (log : Bool)
      (outcome : Nat → CmdOutcome) (i : Nat) (st : ExecState) (cmd : Str) (rest : List Str),
      (outcome i = CmdOutcome.sendRaise →
        exec_loop rd prompt log outcome (cmd :: rest) i st =
          exec_loop rd prompt log outcome rest (i + 1)
            ⟨pyDictInsert cmd none st.results, st.sent, st.sink⟩)
      ∧ (outcome i = CmdOutcome.readRaise → pyStrip cmd ≠ lit "reboot" →
        exec_loop rd prompt log outcome (cmd :: rest) i st =
          exec_loop rd prompt log outcome rest (i + 1)
            ⟨pyDictInsert cmd none st.results, st.sent ++ [cmd ++ crlf], st.sink⟩)
      ∧ (∀ k, k ≠ cmd →
        pyLookup k (pyDictInsert cmd none st.results) = pyLookup k st.results) := by
  intro rd prompt log outcome i st cmd rest
  refine ⟨?_, ?_, ?_⟩
  · intro h
    simp [exec_loop, execStep, h]
  · intro h hreb
    simp [exec_loop, execStep, h, hreb]
  · intro k hk
    rw [pyLookup_insert, if_neg (fun he => hk he.symm)]

/-- Witness for `execute_commands_per_command_isolation`: the first command's
send raises, a null entry is recorded, and the batch continues. -/
theorem execute_commands_per_command_isolation_witness :
    exec_loop serialPromptRead (lit "#") false (fun _ => CmdOutcome.sendRaise)
        [lit "bad", lit "ok"] 0 ⟨[], [], []⟩ =
      exec_loop serialPromptRead (lit "#") false (fun _ => CmdOutcome.sendRaise)
        [lit "ok"] 1 ⟨pyDictInsert (lit "bad") none [], [], []⟩ :=
  (execute_commands_per_command_isolation serialPromptRead (lit "#") false
      (fun _ => CmdOutcome.sendRaise) 0 ⟨[], [], []⟩ (lit "bad") [lit "ok"]).1 rfl

/-- C7: a command whose trimmed text is `reboot` is special-cased after the
send: no prompt wait is consulted — the step is the same for every read
function and whatever data the device would deliver — the synthetic
`"Reboot command sent"` value is recorded for it, and the batch continues
with the remaining commands. -/
theorem execute_commands_reboot_step :
    ∀ (rd : Str → List Str → Str) (prompt : Str) (log : Bool)
      (outcome : Nat → CmdOutcome) (i : Nat) (st : ExecState) (cmd : Str)
      (rest chunks : List Str),
      pyStrip cmd = lit "reboot" →
      outcome i = CmdOutcome.recv chunks →
      exec_loop rd prompt log outcome (cmd :: rest) i st =
        exec_loop rd prompt log outcome rest (i + 1)
          ⟨pyDictInsert cmd (some rebootMsg) st.results,
            st.sent ++ [cmd ++ crlf], st.sink⟩ := by
  intro rd prompt log outcome i st cmd rest chunks hreb h
  simp [exec_loop, execStep, h, hreb]

/-- Witness for `execute_commands_reboot_step`: the literal `" reboot "`
command (trimmed to `reboot`) records the synthetic marker. -/
theorem execute_commands_reboot_step_witness :
    pyStrip (lit " reboot ") = lit "reboot"
    ∧ exec_loop serialPromptRead (lit "#") false (fun _ => CmdOutcome.recv [lit "zzz"])
        [lit " reboot "] 0 ⟨[], [], []⟩ =
      exec_loop serialPromptRead (lit "#") false (fun _ => CmdOutcome.recv [lit "zzz"])
        [] 1 ⟨pyDictInsert (lit " reboot ") (some rebootMsg) [],
          [lit " reboot " ++ crlf], []⟩ :=
  ⟨by decide, execute_commands_reboot_step serialPromptRead (lit "#") false
      (fun _ => CmdOutcome.recv [lit "zzz"]) 0 ⟨[], [], []⟩ (lit " reboot ") [] [lit "zzz"]
      (by decide) rfl⟩
